import Mathlib

/-!
Verification development for the gap-assessment repository.

The repository ships a React frontend (API client, HomePage sorting,
localStorage utilities) and deployment material; the FastAPI backend
pipeline (Extraction Scheduler, Retriever, Gap Synthesis Engine, Metrics
Collector, Assessment Coordinator) is not present in the source tree, so
those components are modelled from the specification and marked as such.
Frontend functions are embedded directly from the JavaScript source.
-/

namespace GapAgent

/-! ## Data model -/

/-- Priority tier of a gap (`Critical`|`High`|`Medium`|`Low`). -/
inductive Priority where
  | Critical
  | High
  | Medium
  | Low
deriving DecidableEq, Repr

/-- Numeric order used by the HomePage comparator:
`const priorityOrder = { Critical: 0, High: 1, Medium: 2, Low: 3 }`. -/
def priorityOrder : Priority → Nat
  | .Critical => 0
  | .High => 1
  | .Medium => 2
  | .Low => 3

/-- A gap record as produced by the pipeline and consumed by the frontend:
gap identifier, description, current/target state narratives, ordered
recommendations, priority tier, integer risk score, benchmark source
attribution (provenance tags). -/
structure GapRecord where
  gap_id : String
  description : String
  current_state : String
  target_state : String
  recommendations : List String
  priority : Priority
  risk_score : Nat
  attribution : List String
deriving DecidableEq, Repr

/-! ## HomePage gap sorting (src/unnamed/part_002, `sortedGaps`)

The JavaScript is
`[...assessment.gaps].sort((a, b) => priorityOrder[a.priority] - priorityOrder[b.priority])`.
`Array.prototype.sort` is a stable sort of the copied array by the numeric
comparator, i.e. a stable sort by the key `priorityOrder`.  We embed it as
a stable insertion sort by that key: each element is inserted after all
already-placed elements whose key is less than or equal to its own. -/

/-- Insert `g` into `l` before the first element whose priority key is
strictly greater than `g`'s (stable placement after equal keys). -/
def insertPri (g : GapRecord) : List GapRecord → List GapRecord
  | [] => [g]
  | h :: t =>
    if priorityOrder g.priority < priorityOrder h.priority then g :: h :: t
    else h :: insertPri g t

/-- The HomePage `sortedGaps`: stable sort of the gap list by
`priorityOrder` of the priority tier (Critical first), and nothing else. -/
def sortedGaps (gaps : List GapRecord) : List GapRecord :=
  gaps.foldl (fun acc g => insertPri g acc) []

/-- The ordering the specification claims for the displayed gap list:
priority descending, then risk score descending, then gap id ascending,
between each adjacent pair. -/
def claimPairOk (a b : GapRecord) : Prop :=
  priorityOrder a.priority < priorityOrder b.priority ∨
    (priorityOrder a.priority = priorityOrder b.priority ∧
      (b.risk_score < a.risk_score ∨
        (a.risk_score = b.risk_score ∧ a.gap_id ≤ b.gap_id)))

instance : DecidableRel claimPairOk := fun a b =>
  inferInstanceAs (Decidable
    (priorityOrder a.priority < priorityOrder b.priority ∨
      (priorityOrder a.priority = priorityOrder b.priority ∧
        (b.risk_score < a.risk_score ∨
          (a.risk_score = b.risk_score ∧ a.gap_id ≤ b.gap_id)))))

/-- The specification's total order on the whole list, checked on each
adjacent pair. -/
def claimOrderedB : List GapRecord → Bool
  | [] => true
  | [_] => true
  | a :: b :: t => decide (claimPairOk a b) && claimOrderedB (b :: t)

/-- Propositional form of the specification's claimed order. -/
def claimOrdered (l : List GapRecord) : Prop := claimOrderedB l = true

instance (l : List GapRecord) : Decidable (claimOrdered l) :=
  inferInstanceAs (Decidable (claimOrderedB l = true))

/-- Order actually enforced by the HomePage comparator: nondecreasing
`priorityOrder` key. -/
def priLe (a b : GapRecord) : Prop :=
  priorityOrder a.priority ≤ priorityOrder b.priority

/-! ## localStorage utilities (src/unnamed/part_002, storage.js) -/

/-- A comment as built by `saveComment`: id from `Date.now()`, the text,
constant author `"Current User"`, ISO timestamp. -/
structure Comment where
  id : String
  text : String
  author : String
  timestamp : String
deriving DecidableEq, Repr

/-- localStorage, restricted to the comment keys: a total map from key
string to the stored (deserialized) comment list, `none` when the key is
absent. -/
def CommentStore : Type := String → Option (List Comment)

/-- localStorage with no comment keys set. -/
def emptyStore : CommentStore := fun _ => none

/-- The storage key used for a gap's comments:
`` `gap_${gapId}_comments` ``. -/
def commentsKey (gapId : String) : String := "gap_" ++ gapId ++ "_comments"

/-- `getComments(gapId)`: parse the stored list, or `[]` when the key is
absent. -/
def getComments (gapId : String) (store : CommentStore) : List Comment :=
  (store (commentsKey gapId)).getD []

/-- `saveComment(gapId, comment)`: read the current list, push a new
comment (id and timestamp supplied by the clock), write it back under the
gap's key, and return the new comment. -/
def saveComment (gapId text nowId nowTs : String) (store : CommentStore) :
    CommentStore × Comment :=
  let comments := getComments gapId store
  let newComment : Comment :=
    { id := nowId, text := text, author := "Current User", timestamp := nowTs }
  let comments' := comments ++ [newComment]
  (fun k => if k = commentsKey gapId then some comments' else store k, newComment)

/-! ## Assessment history (src/unnamed/part_002, `saveAssessmentHistory`) -/

/-- One history entry as built by `saveAssessmentHistory`: id from
`Date.now()`, ISO timestamp, and the stored assessment payload (the JS is
untyped, so the payload type is a parameter). -/
structure HistoryEntry (α : Type) where
  id : String
  timestamp : String
  assessment : α
deriving DecidableEq, Repr

/-- `saveAssessmentHistory(assessment)`: prepend a new entry
(`history.unshift(entry)`), then drop the last entry when the list
exceeds 100 (`if (history.length > 100) history.pop()`), and store the
result. -/
def saveAssessmentHistory {α : Type} (assessment : α) (nowId nowTs : String)
    (history : List (HistoryEntry α)) : List (HistoryEntry α) :=
  let entry : HistoryEntry α := { id := nowId, timestamp := nowTs, assessment := assessment }
  let h' := entry :: history
  if h'.length > 100 then h'.dropLast else h'

/-! ## API client (src/unnamed/part_001, `assessGaps`) -/

/-- The JSON body sent by `assessGaps`:
`{ query, force_extraction: forceExtraction }`. -/
structure PostBody where
  query : String
  force_extraction : Bool
deriving DecidableEq, Repr

/-- One HTTP request issued through the axios instance. -/
structure ApiRequest where
  method : String
  path : String
  body : PostBody
deriving DecidableEq, Repr

/-- An axios response; `data` is the parsed response body. -/
structure ApiResponse (α : Type) where
  data : α

/-- `assessGaps(query, forceExtraction = false)`: issue exactly one
`api.post('/assess', {query, force_extraction: forceExtraction})` and
return `response.data`; a failed request is rethrown unchanged.  The
transport is passed in as `post`; the first component records the
requests issued during the call. -/
def assessGaps {α E : Type} (post : ApiRequest → Except E (ApiResponse α))
    (query : String) (forceExtraction : Bool := false) :
    List ApiRequest × Except E α :=
  let req : ApiRequest :=
    { method := "POST", path := "/assess",
      body := { query := query, force_extraction := forceExtraction } }
  ([req], (post req).map ApiResponse.data)

/-! ## Extraction Scheduler

Modelled from the spec: the backend Scheduler (`ensure_fresh`) is not in
the source tree; §4.1 of the specification defines it.  Time is in epoch
seconds; the freshness window is `extraction_interval_hours` (default 24).
The external scraper is passed in as its result: `some chunks` on a
successful scrape, `none` on scraper error/timeout. -/

/-- An evidence chunk: owning source id, provenance tag (`company` or a
benchmark organization tag), raw text. -/
structure EvidenceChunk where
  chunk_id : String
  source_id : String
  tag : String
  text : String
deriving DecidableEq, Repr

/-- Durable per-source extraction record: source id and last-extracted
timestamp (epoch seconds). -/
structure ExtractionRecord where
  source_id : String
  last_extracted : Nat
deriving DecidableEq, Repr

/-- Outcome reported by the Scheduler. -/
inductive ExtractionOutcome where
  | cached
  | extracted
  | extraction_failed
deriving DecidableEq, Repr

/-- What one `ensure_fresh` call did: the outcome, the (possibly updated)
record, whether the external scraper was invoked, and the freshly scraped
chunks (empty unless extraction succeeded). -/
structure SchedulerResult where
  outcome : ExtractionOutcome
  record : ExtractionRecord
  scraper_invoked : Bool
  new_chunks : List EvidenceChunk
deriving DecidableEq, Repr

/-- Configuration recognized by the pipeline (spec §6): freshness window
in hours and maximum search results per provenance tag. -/
structure AgentConfig where
  extraction_interval_hours : Nat
  max_search_results : Nat
deriving DecidableEq, Repr

/-- Modelled from the spec: `ensure_fresh(source_id, force)` (§4.1).
If `force` is false and `now` is within the freshness window of the
recorded timestamp, return `cached` without touching the scraper;
otherwise trigger extraction: on success update the record's timestamp,
on failure report `extraction_failed` and leave the record unchanged. -/
def ensure_fresh (cfg : AgentConfig) (rec : ExtractionRecord) (force : Bool)
    (now : Nat) (scrape : Option (List EvidenceChunk)) : SchedulerResult :=
  if force = false ∧ now < rec.last_extracted + cfg.extraction_interval_hours * 3600 then
    { outcome := .cached, record := rec, scraper_invoked := false, new_chunks := [] }
  else
    match scrape with
    | some chunks =>
      { outcome := .extracted, record := { rec with last_extracted := now },
        scraper_invoked := true, new_chunks := chunks }
    | none =>
      { outcome := .extraction_failed, record := rec,
        scraper_invoked := true, new_chunks := [] }

/-! ## Retriever

Modelled from the spec: the backend Retriever (§4.3) is not in the source
tree.  One Evidence Store query per provenance tag, each capped at
`max_search_results`. -/

/-- Evidence Store query for one provenance tag, capped at the configured
maximum per tag. -/
def retrieveTag (cfg : AgentConfig) (store : List EvidenceChunk) (t : String) :
    List EvidenceChunk :=
  (store.filter (fun c => c.tag == t)).take cfg.max_search_results

/-! ## Gap Synthesis Engine

Modelled from the spec: the backend engine (§4.4) is not in the source
tree.  Six fixed stages, each exactly one model invocation, retried once
on parse failure.  The language model is modelled by (a) a parse oracle
`o stage attempt : Bool` saying whether the call's response parsed, and
(b) deterministic content stubs per stage (the spec's idempotence
property assumes a deterministic model stub). -/

/-- A best-practice item from benchmark normalization (stage 2), tagged
with the benchmark source(s) it came from. -/
structure Practice where
  text : String
  sources : List String
deriving DecidableEq, Repr

/-- A candidate gap from gap identification (stage 3): description,
current/target state, raw benchmark attribution, no risk yet. -/
structure CandidateGap where
  description : String
  current_state : String
  target_state : String
  attribution : List String
deriving DecidableEq, Repr

/-- A candidate gap after risk scoring and prioritization (stage 4). -/
structure ScoredGap where
  description : String
  current_state : String
  target_state : String
  attribution : List String
  risk_score : Nat
  priority : Priority
deriving DecidableEq, Repr

/-- Stage 1, extraction normalization: one call over all retrieved company
evidence, producing a current-state summary. -/
def normalizeCompany (ev : List EvidenceChunk) : String :=
  String.intercalate " | " (ev.map (fun c => c.text))

/-- Stage 2, benchmark normalization: one call over all retrieved
benchmark evidence, each practice tagged with the source it came from. -/
def normalizeBenchmark (ev : List EvidenceChunk) : List Practice :=
  ev.map (fun c => { text := c.text, sources := [c.tag] })

/-- Stage 3, gap identification: one batched call over both summaries,
producing candidate gaps whose raw attribution is inherited from the
practices they close. -/
def identifyGaps (current : String) (ps : List Practice) : List CandidateGap :=
  ps.map (fun p =>
    { description := p.text, current_state := current,
      target_state := p.text, attribution := p.sources })

/-- Stage 4, risk scoring and prioritization: one batched call assigning
every candidate a risk score (clamped to 0-10) and a priority tier. -/
def scoreGaps (riskOf : String → Nat) (priorityOf : String → Priority)
    (gs : List CandidateGap) : List ScoredGap :=
  gs.map (fun g =>
    { description := g.description, current_state := g.current_state,
      target_state := g.target_state, attribution := g.attribution,
      risk_score := min (riskOf g.description) 10,
      priority := priorityOf g.description })

/-- Stage 5, recommendation generation: one batched call producing the
ordered recommendation list per gap. -/
def addRecommendations (recsOf : String → List String) (gs : List ScoredGap) :
    List GapRecord :=
  gs.map (fun g =>
    { gap_id := "", description := g.description,
      current_state := g.current_state, target_state := g.target_state,
      recommendations := recsOf g.description, priority := g.priority,
      risk_score := g.risk_score, attribution := g.attribution })

/-- One step of the stage-6 merge: a gap whose description duplicates an
already-kept gap contributes its attribution to that gap (union, no
duplicates); otherwise it is appended. -/
def mergeInto (acc : List GapRecord) (g : GapRecord) : List GapRecord :=
  if acc.any (fun h => h.description == g.description) then
    acc.map (fun h =>
      if h.description == g.description then
        { h with attribution :=
            h.attribution ++ g.attribution.filter (fun t => ¬ h.attribution.contains t) }
      else h)
  else acc ++ [g]

/-- Stage 6, consistency pass: one call that merges duplicate gaps,
unions their attributions, and assigns stable content-derived gap
identifiers. -/
def consistencyPass (gs : List GapRecord) : List GapRecord :=
  (gs.foldl mergeInto []).map (fun g => { g with gap_id := "GAP-" ++ g.description })

/-- Strict "comes before" of the spec's final sort order: priority tier
descending, then risk score descending, then gap id ascending. -/
def specLtB (a b : GapRecord) : Bool :=
  decide (priorityOrder a.priority < priorityOrder b.priority) ||
    (priorityOrder a.priority == priorityOrder b.priority &&
      (decide (b.risk_score < a.risk_score) ||
        (a.risk_score == b.risk_score && decide (a.gap_id < b.gap_id))))

/-- Insertion step for the engine's final sort. -/
def insertSpec (g : GapRecord) : List GapRecord → List GapRecord
  | [] => [g]
  | h :: t => if specLtB g h then g :: h :: t else h :: insertSpec g t

/-- The engine's final sort of the gap list (spec §4.4 sort order). -/
def sortSpec (gs : List GapRecord) : List GapRecord :=
  gs.foldl (fun acc g => insertSpec g acc) []

/-- Synthesis failure: a model response could not be parsed even after the
one retry. -/
inductive SynthErr where
  | SynthesisParseFailure
deriving DecidableEq, Repr

/-- Number of model calls a stage consumes under the parse oracle: 1 if
the first attempt parses, 2 if only the retry parses, `none` (abort) when
both attempts fail.  Attempts beyond the single retry are never
consulted. -/
def stageCost (o : Nat → Nat → Bool) (i : Nat) : Option Nat :=
  if o i 0 then some 1 else if o i 1 then some 2 else none

/-- Modelled from the spec: the Gap Synthesis Engine (§4.4).  Runs the six
stages strictly in sequence, each one model invocation retried once on
parse failure; a second failure aborts with `SynthesisParseFailure`.  On
success, returns the sorted merged gap list together with the exact
number of model calls made. -/
def synthesize (o : Nat → Nat → Bool) (riskOf : String → Nat)
    (priorityOf : String → Priority) (recsOf : String → List String)
    (company bench : List EvidenceChunk) :
    Except SynthErr (List GapRecord × Nat) :=
  match stageCost o 0 with
  | none => .error .SynthesisParseFailure
  | some k0 =>
    let s1 := normalizeCompany company
    match stageCost o 1 with
    | none => .error .SynthesisParseFailure
    | some k1 =>
      let s2 := normalizeBenchmark bench
      match stageCost o 2 with
      | none => .error .SynthesisParseFailure
      | some k2 =>
        let s3 := identifyGaps s1 s2
        match stageCost o 3 with
        | none => .error .SynthesisParseFailure
        | some k3 =>
          let s4 := scoreGaps riskOf priorityOf s3
          match stageCost o 4 with
          | none => .error .SynthesisParseFailure
          | some k4 =>
            let s5 := addRecommendations recsOf s4
            match stageCost o 5 with
            | none => .error .SynthesisParseFailure
            | some k5 =>
              let s6 := consistencyPass s5
              .ok (sortSpec s6, k0 + k1 + k2 + k3 + k4 + k5)

/-- Model calls one stage consumes when it succeeds: 1 without retry, 2
with the single retry. -/
def stageCalls (o : Nat → Nat → Bool) (i : Nat) : Nat :=
  if o i 0 then 1 else 2

/-- Total model calls of a successful run: the number of stage executions
including retries, summed over the six stages. -/
def totalCalls (o : Nat → Nat → Bool) : Nat :=
  ((List.range 6).map (stageCalls o)).sum

/-! ## Summary, metrics, coordinator

Modelled from the spec: AssessmentSummary/AssessmentMetrics (§3), the
overall risk score formula (§4.4), and the Assessment Coordinator and
HTTP response shapes (§4.6, §6, §7) are not in the source tree. -/

/-- Priority weight of the overall risk score: Critical=4, High=3,
Medium=2, Low=1. -/
def priorityWeight : Priority → ℚ
  | .Critical => 4
  | .High => 3
  | .Medium => 2
  | .Low => 1

/-- Sum of weight times individual risk score over the gap list. -/
def weightedRiskSum (gaps : List GapRecord) : ℚ :=
  (gaps.map (fun g => priorityWeight g.priority * (g.risk_score : ℚ))).sum

/-- Sum of the priority weights over the gap list. -/
def totalWeight (gaps : List GapRecord) : ℚ :=
  (gaps.map (fun g => priorityWeight g.priority)).sum

/-- Modelled from the spec: `AssessmentSummary.overall_risk_score` (§4.4),
the priority-weighted mean of the gaps' risk scores, normalized back to
the 0-10 scale by dividing by the total weight; 0 for an empty list. -/
def overall_risk_score (gaps : List GapRecord) : ℚ :=
  if gaps.isEmpty then 0 else weightedRiskSum gaps / totalWeight gaps

/-- Aggregate over a run's gap records. -/
structure AssessmentSummary where
  total_gaps : Nat
  critical_gaps : Nat
  high_priority_gaps : Nat
  overall_risk_score : ℚ
deriving DecidableEq, Repr

/-- Build the summary from the final gap list. -/
def summarize (gaps : List GapRecord) : AssessmentSummary :=
  { total_gaps := gaps.length,
    critical_gaps := (gaps.filter (fun g => g.priority == Priority.Critical)).length,
    high_priority_gaps := (gaps.filter (fun g => g.priority == Priority.High)).length,
    overall_risk_score := overall_risk_score gaps }

/-- Counters for one run. -/
structure AssessmentMetrics where
  llm_calls : Nat
  latency_seconds : ℚ
  search_results_count : Nat
  comparison_count : Nat
deriving DecidableEq, Repr

/-- The composed assessment: gap list, summary, metrics. -/
structure AssessmentResult where
  gaps : List GapRecord
  summary : AssessmentSummary
  metrics : AssessmentMetrics
deriving DecidableEq, Repr

/-- Error kinds of the pipeline (spec §7). -/
inductive ErrorKind where
  | ExtractionFailure
  | RetrievalFailure
  | SynthesisParseFailure
  | LeaseContention
deriving DecidableEq, Repr

/-- An aborting error's user-visible response: status and message only,
no assessment payload. -/
structure ErrorResponse where
  kind : ErrorKind
  status : String
  message : String
deriving DecidableEq, Repr

/-- The `POST /assess` success response:
`{status, query, assessment, message}`. -/
structure SuccessResponse where
  status : String
  query : String
  assessment : AssessmentResult
  message : String
deriving DecidableEq, Repr

/-- Retrieve from the store and synthesize, assembling the assessment with
its metrics.  Retrieval: one query for the `company` tag plus one per
benchmark tag; the comparison count is stage-3 input size (company items
times benchmark items). -/
def assessFromStore (cfg : AgentConfig) (o : Nat → Nat → Bool)
    (riskOf : String → Nat) (priorityOf : String → Priority)
    (recsOf : String → List String) (benchmarkTags : List String)
    (store : List EvidenceChunk) (latency : ℚ) :
    Except SynthErr AssessmentResult :=
  let company := retrieveTag cfg store "company"
  let bench := (benchmarkTags.map (retrieveTag cfg store)).flatten
  match synthesize o riskOf priorityOf recsOf company bench with
  | .error e => .error e
  | .ok (gaps, calls) =>
    .ok { gaps := gaps,
          summary := summarize gaps,
          metrics :=
            { llm_calls := calls, latency_seconds := latency,
              search_results_count := company.length + bench.length,
              comparison_count := company.length * bench.length } }

/-- The error response surfaced when synthesis fails after its retry. -/
def synthFailureResponse : ErrorResponse :=
  { kind := .SynthesisParseFailure, status := "error",
    message := "Gap synthesis failed: model response could not be parsed after retry" }

/-- Modelled from the spec: the Assessment Coordinator (§4.6) behind
`POST /assess`.  Sequence: Scheduler (freshness / extraction, superseding
the source's chunks on success), Retriever, Gap Synthesis Engine, metrics;
a terminal synthesis failure yields a single structured error response
with no assessment payload. -/
def runAssessment (cfg : AgentConfig) (o : Nat → Nat → Bool)
    (riskOf : String → Nat) (priorityOf : String → Priority)
    (recsOf : String → List String) (query : String) (force : Bool)
    (now : Nat) (rec : ExtractionRecord)
    (scrape : Option (List EvidenceChunk)) (store : List EvidenceChunk)
    (benchmarkTags : List String) (latency : ℚ) :
    Except ErrorResponse SuccessResponse :=
  let sched := ensure_fresh cfg rec force now scrape
  let store' :=
    match sched.outcome with
    | .extracted => sched.new_chunks ++ store.filter (fun c => c.source_id != rec.source_id)
    | _ => store
  match assessFromStore cfg o riskOf priorityOf recsOf benchmarkTags store' latency with
  | .error _ => .error synthFailureResponse
  | .ok a =>
    .ok { status := "success", query := query, assessment := a,
          message := "Gap assessment completed successfully" }

/-! ## Lemmas about the HomePage sort -/

theorem priorityOrder_inj {p q : Priority} (h : priorityOrder p = priorityOrder q) :
    p = q := by
  cases p <;> cases q <;> simp_all [priorityOrder]

theorem mem_insertPri {x g : GapRecord} {l : List GapRecord} :
    x ∈ insertPri g l ↔ x = g ∨ x ∈ l := by
  induction l with
  | nil => simp [insertPri]
  | cons h t ih =>
    by_cases hc : priorityOrder g.priority < priorityOrder h.priority
    · rw [insertPri, if_pos hc]
      simp only [List.mem_cons]
    · rw [insertPri, if_neg hc]
      simp only [List.mem_cons, ih]
      tauto

theorem pairwise_insertPri {g : GapRecord} {l : List GapRecord}
    (hl : l.Pairwise priLe) : (insertPri g l).Pairwise priLe := by
  induction l with
  | nil => simp [insertPri, priLe]
  | cons h t ih =>
    rcases List.pairwise_cons.mp hl with ⟨h1, h2⟩
    by_cases hc : priorityOrder g.priority < priorityOrder h.priority
    · simp only [insertPri, if_pos hc]
      refine List.pairwise_cons.mpr ⟨?_, hl⟩
      intro x hx
      rcases List.mem_cons.mp hx with rfl | hx
      · exact Nat.le_of_lt hc
      · exact Nat.le_trans (Nat.le_of_lt hc) (h1 x hx)
    · simp only [insertPri, if_neg hc]
      refine List.pairwise_cons.mpr ⟨?_, ih h2⟩
      intro x hx
      rcases mem_insertPri.mp hx with rfl | hx
      · exact Nat.le_of_not_lt hc
      · exact h1 x hx

theorem filter_insertPri_ne {g : GapRecord} {p : Priority} {l : List GapRecord}
    (hg : g.priority ≠ p) :
    (insertPri g l).filter (fun x => x.priority == p) =
      l.filter (fun x => x.priority == p) := by
  induction l with
  | nil => simp [insertPri, hg]
  | cons h t ih =>
    by_cases hc : priorityOrder g.priority < priorityOrder h.priority
    · simp only [insertPri, if_pos hc]
      simp [List.filter_cons, hg]
    · simp only [insertPri, if_neg hc]
      simp only [List.filter_cons, ih]

theorem filter_insertPri_eq {g : GapRecord} {p : Priority} {l : List GapRecord}
    (hl : l.Pairwise priLe) (hg : g.priority = p) :
    (insertPri g l).filter (fun x => x.priority == p) =
      l.filter (fun x => x.priority == p) ++ [g] := by
  induction l with
  | nil => simp [insertPri, hg]
  | cons h t ih =>
    rcases List.pairwise_cons.mp hl with ⟨h1, h2⟩
    by_cases hc : priorityOrder g.priority < priorityOrder h.priority
    · simp only [insertPri, if_pos hc]
      have hnone : ∀ x ∈ h :: t, ¬ (x.priority = p) := by
        intro x hx hxp
        have hge : priorityOrder h.priority ≤ priorityOrder x.priority := by
          rcases List.mem_cons.mp hx with rfl | hx
          · exact Nat.le_refl _
          · exact h1 x hx
        have : priorityOrder g.priority < priorityOrder x.priority :=
          Nat.lt_of_lt_of_le hc hge
        rw [hxp, ← hg] at this
        exact Nat.lt_irrefl _ this
      have hfilter : (h :: t).filter (fun x => x.priority == p) = [] := by
        rw [List.filter_eq_nil_iff]
        intro x hx
        simpa using hnone x hx
      simp [List.filter_cons, hfilter, hg]
    · simp only [insertPri, if_neg hc]
      simp only [List.filter_cons]
      by_cases hh : h.priority = p
      · simp [hh, ih h2]
      · simp [hh, ih h2]

theorem sortedGaps_loop_pairwise (gaps : List GapRecord) :
    ∀ acc : List GapRecord, acc.Pairwise priLe →
      (gaps.foldl (fun a g => insertPri g a) acc).Pairwise priLe := by
  induction gaps with
  | nil => intro acc hacc; simpa using hacc
  | cons g gs ih =>
    intro acc hacc
    simpa using ih (insertPri g acc) (pairwise_insertPri hacc)

theorem sortedGaps_loop_filter (p : Priority) (gaps : List GapRecord) :
    ∀ acc : List GapRecord, acc.Pairwise priLe →
      (gaps.foldl (fun a g => insertPri g a) acc).filter (fun x => x.priority == p) =
        acc.filter (fun x => x.priority == p) ++ gaps.filter (fun x => x.priority == p) := by
  induction gaps with
  | nil => intro acc hacc; simp
  | cons g gs ih =>
    intro acc hacc
    simp only [List.foldl_cons]
    rw [ih (insertPri g acc) (pairwise_insertPri hacc)]
    by_cases hg : g.priority = p
    · rw [filter_insertPri_eq hacc hg]
      simp [List.filter_cons, hg, List.append_assoc]
    · rw [filter_insertPri_ne hg]
      simp [List.filter_cons, hg]

/-- C2 counterexample: on an input with two gaps sharing the `High`
priority tier but with risk scores 3 and 7 in that order, the HomePage
`sortedGaps` leaves them in input order, so the displayed gap list is not
ordered by descending risk score within the tier — the claimed total
order fails on the code. -/
theorem C2_counterexample :
    ¬ claimOrdered (sortedGaps
      [{ gap_id := "G1", description := "d1", current_state := "", target_state := "",
         recommendations := [], priority := .High, risk_score := 3, attribution := [] },
       { gap_id := "G2", description := "d2", current_state := "", target_state := "",
         recommendations := [], priority := .High, risk_score := 7, attribution := [] }]) := by
  decide

/-- C2 (amended): the HomePage gap list is sorted by priority tier
descending only (Critical, then High, then Medium, then Low); within a
tier the input order is preserved (the sort is stable), and neither risk
score nor gap identifier affects the order. -/
theorem C2_sortedGaps_priority_only (gaps : List GapRecord) :
    (sortedGaps gaps).Pairwise priLe ∧
      ∀ p : Priority, (sortedGaps gaps).filter (fun g => g.priority == p) =
        gaps.filter (fun g => g.priority == p) := by
  constructor
  · exact sortedGaps_loop_pairwise gaps [] List.Pairwise.nil
  · intro p
    simpa [sortedGaps] using sortedGaps_loop_filter p gaps [] List.Pairwise.nil

/-- C8: `assessGaps(query, forceExtraction)` issues exactly one POST
request to `/assess` whose body is
`{query: query, force_extraction: forceExtraction}`, the second argument
defaults to `false` when omitted, and the result is the transport's
response body (`response.data`) unchanged on success (a failed request is
rethrown unchanged). -/
theorem C8_assessGaps_single_post {α E : Type}
    (post : ApiRequest → Except E (ApiResponse α)) (q : String) (f : Bool) :
    (assessGaps post q f).1 =
      [{ method := "POST", path := "/assess",
         body := { query := q, force_extraction := f } }] ∧
    (assessGaps post q f).2 =
      (post { method := "POST", path := "/assess",
              body := { query := q, force_extraction := f } }).map ApiResponse.data ∧
    assessGaps post q = assessGaps post q false :=
  ⟨rfl, rfl, rfl⟩

/-- C9: when the stored history has at most 100 entries,
`saveAssessmentHistory` keeps it at most 100 entries, places the new
entry at index 0, keeps the previously stored entries in their prior
order, and drops exactly the oldest (last) entry when the bound would be
exceeded. -/
theorem C9_saveAssessmentHistory_bounded {α : Type} (a : α) (nowId nowTs : String)
    (h : List (HistoryEntry α)) (hlen : h.length ≤ 100) :
    (saveAssessmentHistory a nowId nowTs h).length ≤ 100 ∧
    (saveAssessmentHistory a nowId nowTs h).head? =
      some { id := nowId, timestamp := nowTs, assessment := a } ∧
    (h.length < 100 → saveAssessmentHistory a nowId nowTs h =
      { id := nowId, timestamp := nowTs, assessment := a } :: h) ∧
    (h.length = 100 → saveAssessmentHistory a nowId nowTs h =
      { id := nowId, timestamp := nowTs, assessment := a } :: h.dropLast) := by
  by_cases hfull : h.length = 100
  · have hne : h ≠ [] := by
      intro hnil; rw [hnil] at hfull; simp at hfull
    have hcond : ({ id := nowId, timestamp := nowTs, assessment := a } :: h).length > 100 := by
      simp [hfull]
    have hres : saveAssessmentHistory a nowId nowTs h =
        { id := nowId, timestamp := nowTs, assessment := a } :: h.dropLast := by
      simp only [saveAssessmentHistory, if_pos hcond]
      exact List.dropLast_cons_of_ne_nil hne
    refine ⟨?_, ?_, ?_, fun _ => hres⟩
    · rw [hres]
      simp [List.length_dropLast, hfull]
    · rw [hres]; rfl
    · intro hlt; omega
  · have hlt : h.length < 100 := Nat.lt_of_le_of_ne hlen hfull
    have hcond : ¬ ({ id := nowId, timestamp := nowTs, assessment := a } :: h).length > 100 := by
      simp; omega
    have hres : saveAssessmentHistory a nowId nowTs h =
        { id := nowId, timestamp := nowTs, assessment := a } :: h := by
      simp only [saveAssessmentHistory, if_neg hcond]
    refine ⟨?_, ?_, fun _ => hres, ?_⟩
    · rw [hres]; simp; omega
    · rw [hres]; rfl
    · intro heq; omega

/-- C9 witness: instantiated at the empty history. -/
theorem C9_witness :
    ([] : List (HistoryEntry Nat)).length ≤ 100 ∧
    (saveAssessmentHistory 0 "1" "t" ([] : List (HistoryEntry Nat))).head? =
      some { id := "1", timestamp := "t", assessment := 0 } :=
  ⟨by decide, (C9_saveAssessmentHistory_bounded 0 "1" "t" [] (by decide)).2.1⟩

/-! ## Lemmas about the comment store -/

theorem commentsKey_inj {a b : String} (h : commentsKey a = commentsKey b) :
    a = b := by
  unfold commentsKey at h
  have hd : ("gap_" ++ a ++ "_comments").data = ("gap_" ++ b ++ "_comments").data :=
    congrArg String.data h
  simp only [String.data_append] at hd
  have h3 : a.data = b.data := by simpa using hd
  cases a; cases b; exact congrArg String.mk h3

/-- C10: `getComments` returns `[]` for a gap with no stored comments;
after `saveComment(gapId, text)`, `getComments(gapId)` returns the
previous list with exactly one new comment appended whose `text` field is
`text`, and the stored comments of every other gap id are unchanged. -/
theorem C10_comments_roundtrip :
    (∀ g : String, getComments g emptyStore = []) ∧
    (∀ g text nowId nowTs store,
      getComments g (saveComment g text nowId nowTs store).1 =
        getComments g store ++ [(saveComment g text nowId nowTs store).2] ∧
      (saveComment g text nowId nowTs store).2.text = text) ∧
    (∀ g g' text nowId nowTs store, g' ≠ g →
      getComments g' (saveComment g text nowId nowTs store).1 =
        getComments g' store) := by
  refine ⟨fun g => rfl, fun g text nowId nowTs store => ⟨?_, rfl⟩,
    fun g g' text nowId nowTs store hne => ?_⟩
  · simp [getComments, saveComment]
  · have hkey : commentsKey g' ≠ commentsKey g := fun hk => hne (commentsKey_inj hk)
    simp [getComments, saveComment, hkey]

/-- C10 witness: instantiated at gap ids `"g1"` and `"g2"` over the empty
store. -/
theorem C10_witness :
    ("g2" : String) ≠ "g1" ∧
    getComments "g2" (saveComment "g1" "hello" "1" "t" emptyStore).1 =
      getComments "g2" emptyStore :=
  ⟨by decide, C10_comments_roundtrip.2.2 "g1" "g2" "hello" "1" "t" emptyStore (by decide)⟩

/-! ## Lemmas about the Gap Synthesis Engine -/

theorem stageCost_eq_of_parse {o : Nat → Nat → Bool} {i : Nat}
    (h : o i 0 = true ∨ o i 1 = true) : stageCost o i = some (stageCalls o i) := by
  unfold stageCost stageCalls
  rcases h with h | h
  · simp [h]
  · by_cases h0 : o i 0 <;> simp [h0, h]

theorem totalCalls_eq (o : Nat → Nat → Bool) :
    totalCalls o = stageCalls o 0 + stageCalls o 1 + stageCalls o 2 +
      stageCalls o 3 + stageCalls o 4 + stageCalls o 5 := by
  simp [totalCalls, List.range_succ]
  omega

/-- The gap list a successful synthesis run produces, as a function of the
retrieved evidence and the deterministic content stubs. -/
def pipelineGaps (riskOf : String → Nat) (priorityOf : String → Priority)
    (recsOf : String → List String) (company bench : List EvidenceChunk) :
    List GapRecord :=
  sortSpec (consistencyPass (addRecommendations recsOf (scoreGaps riskOf priorityOf
    (identifyGaps (normalizeCompany company) (normalizeBenchmark bench)))))

theorem synthesize_ok_shape {o : Nat → Nat → Bool} {riskOf : String → Nat}
    {priorityOf : String → Priority} {recsOf : String → List String}
    {company bench : List EvidenceChunk} {gaps : List GapRecord} {calls : Nat}
    (h : synthesize o riskOf priorityOf recsOf company bench = .ok (gaps, calls)) :
    gaps = pipelineGaps riskOf priorityOf recsOf company bench := by
  unfold synthesize at h
  rcases hc0 : stageCost o 0 with _ | k0 <;> rw [hc0] at h
  · exact Except.noConfusion h
  rcases hc1 : stageCost o 1 with _ | k1 <;> rw [hc1] at h
  · exact Except.noConfusion h
  rcases hc2 : stageCost o 2 with _ | k2 <;> rw [hc2] at h
  · exact Except.noConfusion h
  rcases hc3 : stageCost o 3 with _ | k3 <;> rw [hc3] at h
  · exact Except.noConfusion h
  rcases hc4 : stageCost o 4 with _ | k4 <;> rw [hc4] at h
  · exact Except.noConfusion h
  rcases hc5 : stageCost o 5 with _ | k5 <;> rw [hc5] at h
  · exact Except.noConfusion h
  injection h with h'
  exact (congrArg Prod.fst h').symm

theorem synthesize_ok_of_parse {o : Nat → Nat → Bool} {riskOf : String → Nat}
    {priorityOf : String → Priority} {recsOf : String → List String}
    {company bench : List EvidenceChunk}
    (hok : ∀ i < 6, o i 0 = true ∨ o i 1 = true) :
    synthesize o riskOf priorityOf recsOf company bench =
      .ok (pipelineGaps riskOf priorityOf recsOf company bench, totalCalls o) := by
  have h0 := stageCost_eq_of_parse (hok 0 (by omega))
  have h1 := stageCost_eq_of_parse (hok 1 (by omega))
  have h2 := stageCost_eq_of_parse (hok 2 (by omega))
  have h3 := stageCost_eq_of_parse (hok 3 (by omega))
  have h4 := stageCost_eq_of_parse (hok 4 (by omega))
  have h5 := stageCost_eq_of_parse (hok 5 (by omega))
  simp only [synthesize, h0, h1, h2, h3, h4, h5, pipelineGaps]
  rw [totalCalls_eq]

theorem synthesize_err_of_fail {o : Nat → Nat → Bool} {riskOf : String → Nat}
    {priorityOf : String → Priority} {recsOf : String → List String}
    {company bench : List EvidenceChunk} {i : Nat} (hi : i < 6)
    (h0 : o i 0 = false) (h1 : o i 1 = false) :
    synthesize o riskOf priorityOf recsOf company bench =
      .error .SynthesisParseFailure := by
  have hnone : stageCost o i = none := by simp [stageCost, h0, h1]
  unfold synthesize
  rcases hc0 : stageCost o 0 with _ | k0
  · rfl
  rcases hc1 : stageCost o 1 with _ | k1
  · rfl
  rcases hc2 : stageCost o 2 with _ | k2
  · rfl
  rcases hc3 : stageCost o 3 with _ | k3
  · rfl
  rcases hc4 : stageCost o 4 with _ | k4
  · rfl
  rcases hc5 : stageCost o 5 with _ | k5
  · rfl
  exfalso
  interval_cases i <;> simp_all

theorem synthesize_retries_once {o o' : Nat → Nat → Bool} {riskOf : String → Nat}
    {priorityOf : String → Priority} {recsOf : String → List String}
    {company bench : List EvidenceChunk}
    (hagree : ∀ i, o i 0 = o' i 0 ∧ o i 1 = o' i 1) :
    synthesize o riskOf priorityOf recsOf company bench =
      synthesize o' riskOf priorityOf recsOf company bench := by
  have hc : ∀ i, stageCost o i = stageCost o' i := fun i => by
    simp [stageCost, (hagree i).1, (hagree i).2]
  simp only [synthesize, hc]

/-- C1: for every successful synthesis run, the model-call count equals
exactly the number of Gap Synthesis Engine stage executions including
retries (a retried stage counts twice), independent of the evidence fed
in (hence of the number of gaps or benchmark sources); with zero retries
it equals exactly 6. -/
theorem C1_llm_calls_eq_stage_executions (o : Nat → Nat → Bool)
    (riskOf : String → Nat) (priorityOf : String → Priority)
    (recsOf : String → List String) (company bench : List EvidenceChunk)
    (hok : ∀ i < 6, o i 0 = true ∨ o i 1 = true) :
    synthesize o riskOf priorityOf recsOf company bench =
      .ok (pipelineGaps riskOf priorityOf recsOf company bench, totalCalls o) ∧
    ((∀ i < 6, o i 0 = true) → totalCalls o = 6) := by
  refine ⟨synthesize_ok_of_parse hok, fun hz => ?_⟩
  rw [totalCalls_eq]
  simp [stageCalls, hz 0 (by omega), hz 1 (by omega), hz 2 (by omega),
    hz 3 (by omega), hz 4 (by omega), hz 5 (by omega)]

/-- C1 witness: an oracle whose every first attempt parses, on a one-chunk
benchmark store. -/
theorem C1_witness :
    (synthesize (fun _ _ => true) (fun _ => 9) (fun _ => Priority.Critical)
        (fun _ => ["Adopt X"]) []
        [{ chunk_id := "c1", source_id := "kpmg", tag := "KPMG", text := "PX" }] =
      .ok (pipelineGaps (fun _ => 9) (fun _ => Priority.Critical) (fun _ => ["Adopt X"]) []
        [{ chunk_id := "c1", source_id := "kpmg", tag := "KPMG", text := "PX" }],
        totalCalls (fun _ _ => true)) ∧
    ((∀ i < 6, (fun _ _ : Nat => true) i 0 = true) →
      totalCalls (fun _ _ => true) = 6)) ∧
    totalCalls (fun _ _ => true) = 6 :=
  ⟨C1_llm_calls_eq_stage_executions (fun _ _ => true) (fun _ => 9)
      (fun _ => Priority.Critical) (fun _ => ["Adopt X"]) []
      [{ chunk_id := "c1", source_id := "kpmg", tag := "KPMG", text := "PX" }]
      (fun i _ => Or.inl rfl),
    by decide⟩

/-! ## Attribution lemmas -/

theorem mem_insertSpec {x g : GapRecord} {l : List GapRecord} :
    x ∈ insertSpec g l ↔ x = g ∨ x ∈ l := by
  induction l with
  | nil => simp [insertSpec]
  | cons h t ih =>
    by_cases hc : specLtB g h
    · rw [insertSpec, if_pos hc]
      simp only [List.mem_cons]
    · rw [insertSpec, if_neg hc]
      simp only [List.mem_cons, ih]
      tauto

theorem mem_sortSpec {x : GapRecord} {l : List GapRecord} :
    x ∈ sortSpec l ↔ x ∈ l := by
  have hloop : ∀ (l acc : List GapRecord),
      x ∈ l.foldl (fun a g => insertSpec g a) acc ↔ x ∈ acc ∨ x ∈ l := by
    intro l
    induction l with
    | nil => intro acc; simp
    | cons g gs ih =>
      intro acc
      simp only [List.foldl_cons, ih, mem_insertSpec, List.mem_cons]
      tauto
  simpa [sortSpec] using hloop l []

theorem mergeInto_attr_sub {S : List String} {acc : List GapRecord} {g : GapRecord}
    (hacc : ∀ h ∈ acc, ∀ t ∈ h.attribution, t ∈ S)
    (hg : ∀ t ∈ g.attribution, t ∈ S) :
    ∀ h ∈ mergeInto acc g, ∀ t ∈ h.attribution, t ∈ S := by
  intro h hh t ht
  unfold mergeInto at hh
  by_cases hb : acc.any (fun x => x.description == g.description)
  · rw [if_pos hb] at hh
    obtain ⟨x, hx, rfl⟩ := List.mem_map.mp hh
    by_cases hd : x.description == g.description
    · simp only [if_pos hd] at ht
      rcases List.mem_append.mp ht with ht | ht
      · exact hacc x hx t ht
      · exact hg t (List.mem_filter.mp ht).1
    · simp only [if_neg hd] at ht
      exact hacc x hx t ht
  · rw [if_neg hb] at hh
    rcases List.mem_append.mp hh with hh | hh
    · exact hacc h hh t ht
    · rcases List.mem_singleton.mp hh with rfl
      exact hg t ht

theorem consistencyPass_attr_sub {S : List String} {gs : List GapRecord}
    (hgs : ∀ g ∈ gs, ∀ t ∈ g.attribution, t ∈ S) :
    ∀ g ∈ consistencyPass gs, ∀ t ∈ g.attribution, t ∈ S := by
  have hfold : ∀ (l acc : List GapRecord),
      (∀ g ∈ acc, ∀ t ∈ g.attribution, t ∈ S) →
      (∀ g ∈ l, ∀ t ∈ g.attribution, t ∈ S) →
      ∀ g ∈ l.foldl mergeInto acc, ∀ t ∈ g.attribution, t ∈ S := by
    intro l
    induction l with
    | nil => intro acc hacc _; simpa using hacc
    | cons g gs ih =>
      intro acc hacc hl
      simp only [List.foldl_cons]
      exact ih (mergeInto acc g)
        (mergeInto_attr_sub hacc (hl g (List.mem_cons_self g gs)))
        (fun x hx => hl x (List.mem_cons_of_mem g hx))
  intro g hg t ht
  unfold consistencyPass at hg
  obtain ⟨x, hx, rfl⟩ := List.mem_map.mp hg
  exact hfold gs [] (by simp) hgs x hx t ht

theorem pipeline_attr_sub (riskOf : String → Nat) (priorityOf : String → Priority)
    (recsOf : String → List String) (s : String) (bench : List EvidenceChunk) :
    ∀ g ∈ addRecommendations recsOf (scoreGaps riskOf priorityOf
      (identifyGaps s (normalizeBenchmark bench))),
      ∀ t ∈ g.attribution, t ∈ bench.map (fun c => c.tag) := by
  intro g hg t ht
  simp only [addRecommendations, scoreGaps, identifyGaps, normalizeBenchmark,
    List.map_map, List.mem_map, Function.comp] at hg
  obtain ⟨c, hc, rfl⟩ := hg
  simp only [List.mem_singleton] at ht
  subst ht
  exact List.mem_map.mpr ⟨c, hc, rfl⟩

/-- C3: every gap record of a successful run cites only provenance tags
that actually appeared among the benchmark evidence retrieved for that
run — the attribution of each gap is a subset of the retrieved tags. -/
theorem C3_attribution_subset (o : Nat → Nat → Bool) (riskOf : String → Nat)
    (priorityOf : String → Priority) (recsOf : String → List String)
    (company bench : List EvidenceChunk) (gaps : List GapRecord) (calls : Nat)
    (h : synthesize o riskOf priorityOf recsOf company bench = .ok (gaps, calls)) :
    ∀ g ∈ gaps, ∀ t ∈ g.attribution, t ∈ bench.map (fun c => c.tag) := by
  intro g hg t ht
  rw [synthesize_ok_shape h] at hg
  unfold pipelineGaps at hg
  exact consistencyPass_attr_sub
    (pipeline_attr_sub riskOf priorityOf recsOf (normalizeCompany company) bench)
    g (mem_sortSpec.mp hg) t ht

/-- C3 witness: on a concrete successful run over one KPMG chunk, the
attribution tag `KPMG` of the produced gap is among the retrieved tags. -/
theorem C3_witness :
    "KPMG" ∈ ([{ chunk_id := "c1", source_id := "kpmg", tag := "KPMG",
                 text := "PX" }] : List EvidenceChunk).map (fun c => c.tag) :=
  C3_attribution_subset (fun _ _ => true) (fun _ => 9) (fun _ => Priority.Critical)
    (fun _ => ["Adopt X"]) []
    [{ chunk_id := "c1", source_id := "kpmg", tag := "KPMG", text := "PX" }]
    (pipelineGaps (fun _ => 9) (fun _ => Priority.Critical) (fun _ => ["Adopt X"]) []
      [{ chunk_id := "c1", source_id := "kpmg", tag := "KPMG", text := "PX" }])
    (totalCalls (fun _ _ => true)) rfl
    { gap_id := "GAP-PX", description := "PX", current_state := "",
      target_state := "PX", recommendations := ["Adopt X"],
      priority := .Critical, risk_score := 9, attribution := ["KPMG"] }
    (by decide) "KPMG" (by decide)

/-- C4: a synthesis stage whose model call fails to parse is retried
exactly once with the same input (the engine consults only attempts 0 and
1 of each stage); if the retry also fails, the whole assessment aborts
with a `SynthesisParseFailure` error distinct from retrieval errors, and
the caller receives a structured error response (status and message, no
assessment payload) instead of any partial gap list. -/
theorem C4_parse_failure_aborts (cfg : AgentConfig) (o : Nat → Nat → Bool)
    (riskOf : String → Nat) (priorityOf : String → Priority)
    (recsOf : String → List String) (query : String) (force : Bool) (now : Nat)
    (rec : ExtractionRecord) (scrape : Option (List EvidenceChunk))
    (store : List EvidenceChunk) (benchmarkTags : List String) (latency : ℚ)
    (i : Nat) (hi : i < 6) (h0 : o i 0 = false) (h1 : o i 1 = false) :
    runAssessment cfg o riskOf priorityOf recsOf query force now rec scrape
        store benchmarkTags latency = .error synthFailureResponse ∧
    synthFailureResponse.kind = ErrorKind.SynthesisParseFailure ∧
    synthFailureResponse.kind ≠ ErrorKind.RetrievalFailure ∧
    (∀ o' : Nat → Nat → Bool, (∀ j, o j 0 = o' j 0 ∧ o j 1 = o' j 1) →
      ∀ company bench, synthesize o riskOf priorityOf recsOf company bench =
        synthesize o' riskOf priorityOf recsOf company bench) := by
  refine ⟨?_, rfl, by simp [synthFailureResponse],
    fun o' ha company bench => synthesize_retries_once ha⟩
  unfold runAssessment assessFromStore
  simp only [synthesize_err_of_fail hi h0 h1]

/-- C4 witness: an oracle that never parses, run through the whole
coordinator. -/
theorem C4_witness :
    (0 : Nat) < 6 ∧
    runAssessment ⟨24, 10⟩ (fun _ _ => false) (fun _ => 5)
        (fun _ => Priority.High) (fun _ => []) "q" false 0 ⟨"bp", 0⟩ none [] [] 0 =
      .error synthFailureResponse :=
  ⟨by decide,
    (C4_parse_failure_aborts ⟨24, 10⟩ (fun _ _ => false) (fun _ => 5)
      (fun _ => Priority.High) (fun _ => []) "q" false 0 ⟨"bp", 0⟩ none [] [] 0
      0 (by decide) rfl rfl).1⟩

/-- C6: with `force_extraction=false` and an ExtractionRecord timestamp
within the configured freshness window, `ensure_fresh` returns `cached`
and never invokes the external scraper — the result is the same whatever
the scraper would have returned, the record is untouched, and the
scraper-invoked flag is false. -/
theorem C6_fresh_cache_skips_scraper (cfg : AgentConfig) (rec : ExtractionRecord)
    (now : Nat) (scrape : Option (List EvidenceChunk))
    (hfresh : now < rec.last_extracted + cfg.extraction_interval_hours * 3600) :
    ensure_fresh cfg rec false now scrape =
      { outcome := .cached, record := rec, scraper_invoked := false,
        new_chunks := [] } := by
  unfold ensure_fresh
  rw [if_pos ⟨rfl, hfresh⟩]

/-- C6 witness: a record extracted at t=1000 queried at t=1500 under the
default 24-hour window, with a scraper that would have returned data. -/
theorem C6_witness :
    (1500 : Nat) < 1000 + 24 * 3600 ∧
    ensure_fresh ⟨24, 10⟩ ⟨"bp", 1000⟩ false 1500 (some []) =
      { outcome := .cached, record := ⟨"bp", 1000⟩, scraper_invoked := false,
        new_chunks := [] } :=
  ⟨by decide, C6_fresh_cache_skips_scraper ⟨24, 10⟩ ⟨"bp", 1000⟩ 1500 (some [])
    (by decide)⟩

/-- C5: when extraction is triggered (forced or stale) and the scraper
fails, the prior ExtractionRecord is unchanged (its timestamp preserved),
the outcome is reported as `extraction_failed`, and — provided synthesis
itself parses — the request still completes with a valid
AssessmentResult computed from the previously stored evidence instead of
aborting. -/
theorem C5_extraction_failure_recovers (cfg : AgentConfig) (o : Nat → Nat → Bool)
    (riskOf : String → Nat) (priorityOf : String → Priority)
    (recsOf : String → List String) (query : String) (force : Bool) (now : Nat)
    (rec : ExtractionRecord) (store : List EvidenceChunk)
    (benchmarkTags : List String) (latency : ℚ)
    (htrig : force = true ∨ rec.last_extracted + cfg.extraction_interval_hours * 3600 ≤ now)
    (hok : ∀ i < 6, o i 0 = true ∨ o i 1 = true) :
    (ensure_fresh cfg rec force now none).record = rec ∧
    (ensure_fresh cfg rec force now none).outcome = .extraction_failed ∧
    ∃ a, assessFromStore cfg o riskOf priorityOf recsOf benchmarkTags store latency =
        .ok a ∧
      runAssessment cfg o riskOf priorityOf recsOf query force now rec none
          store benchmarkTags latency =
        .ok { status := "success", query := query, assessment := a,
              message := "Gap assessment completed successfully" } := by
  have hcond : ¬ (force = false ∧
      now < rec.last_extracted + cfg.extraction_interval_hours * 3600) := by
    rintro ⟨hf, hlt⟩
    rcases htrig with ht | ht
    · rw [ht] at hf; exact Bool.noConfusion hf
    · omega
  have hsched : ensure_fresh cfg rec force now none =
      { outcome := .extraction_failed, record := rec, scraper_invoked := true,
        new_chunks := [] } := by
    unfold ensure_fresh
    rw [if_neg hcond]
  have hexists : ∃ a, assessFromStore cfg o riskOf priorityOf recsOf
      benchmarkTags store latency = .ok a := by
    unfold assessFromStore
    simp only [synthesize_ok_of_parse hok]
    exact ⟨_, rfl⟩
  obtain ⟨a, ha⟩ := hexists
  refine ⟨by rw [hsched], by rw [hsched], a, ha, ?_⟩
  unfold runAssessment
  simp only [hsched, ha]

/-- C5 witness: forced extraction with a failing scraper at a concrete
record, evidence store, and an always-parsing oracle. -/
theorem C5_witness :
    ((true : Bool) = true ∨ (1000 : Nat) + 24 * 3600 ≤ 0) ∧
    (ensure_fresh ⟨24, 10⟩ ⟨"bp", 1000⟩ true 0 none).record = ⟨"bp", 1000⟩ ∧
    (ensure_fresh ⟨24, 10⟩ ⟨"bp", 1000⟩ true 0 none).outcome = .extraction_failed :=
  ⟨Or.inl rfl,
   (C5_extraction_failure_recovers ⟨24, 10⟩ (fun _ _ => true) (fun _ => 5)
     (fun _ => Priority.High) (fun _ => []) "q" true 0 ⟨"bp", 1000⟩ [] [] 0
     (Or.inl rfl) (fun _ _ => Or.inl rfl)).1,
   (C5_extraction_failure_recovers ⟨24, 10⟩ (fun _ _ => true) (fun _ => 5)
     (fun _ => Priority.High) (fun _ => []) "q" true 0 ⟨"bp", 1000⟩ [] [] 0
     (Or.inl rfl) (fun _ _ => Or.inl rfl)).2.1⟩

/-! ## Lemmas about the overall risk score -/

theorem priorityWeight_pos (p : Priority) : 0 < priorityWeight p := by
  cases p <;> norm_num [priorityWeight]

theorem totalWeight_nonneg (gaps : List GapRecord) : 0 ≤ totalWeight gaps := by
  induction gaps with
  | nil => simp [totalWeight]
  | cons g t ih =>
    simp only [totalWeight, List.map_cons, List.sum_cons]
    have := priorityWeight_pos g.priority
    unfold totalWeight at ih
    linarith

theorem totalWeight_pos {gaps : List GapRecord} (h : gaps ≠ []) :
    0 < totalWeight gaps := by
  cases gaps with
  | nil => exact absurd rfl h
  | cons g t =>
    simp only [totalWeight, List.map_cons, List.sum_cons]
    have h1 := priorityWeight_pos g.priority
    have h2 := totalWeight_nonneg t
    unfold totalWeight at h2
    linarith

theorem weightedRiskSum_nonneg (gaps : List GapRecord) :
    0 ≤ weightedRiskSum gaps := by
  induction gaps with
  | nil => simp [weightedRiskSum]
  | cons g t ih =>
    simp only [weightedRiskSum, List.map_cons, List.sum_cons]
    have hw := priorityWeight_pos g.priority
    have hr : (0 : ℚ) ≤ (g.risk_score : ℚ) := by positivity
    unfold weightedRiskSum at ih
    nlinarith

theorem weightedRiskSum_le {gaps : List GapRecord}
    (h : ∀ g ∈ gaps, g.risk_score ≤ 10) :
    weightedRiskSum gaps ≤ 10 * totalWeight gaps := by
  induction gaps with
  | nil => simp [weightedRiskSum, totalWeight]
  | cons g t ih =>
    simp only [weightedRiskSum, totalWeight, List.map_cons, List.sum_cons]
    have hw := priorityWeight_pos g.priority
    have hr : (g.risk_score : ℚ) ≤ 10 := by
      exact_mod_cast h g (List.mem_cons_self g t)
    have ht : weightedRiskSum t ≤ 10 * totalWeight t :=
      ih (fun x hx => h x (List.mem_cons_of_mem g hx))
    unfold weightedRiskSum totalWeight at ht
    nlinarith

/-- The one-Critical-risk-9, one-Medium-risk-4 scenario gap list of the
specification's test scenario (both gaps attributed to `KPMG`). -/
def scenarioGaps : List GapRecord :=
  [{ gap_id := "GAP-a", description := "a", current_state := "", target_state := "",
     recommendations := [], priority := .Critical, risk_score := 9,
     attribution := ["KPMG"] },
   { gap_id := "GAP-b", description := "b", current_state := "", target_state := "",
     recommendations := [], priority := .Medium, risk_score := 4,
     attribution := ["KPMG"] }]

/-- C7: for every non-empty gap list the summary's overall risk score is
the priority-weighted mean of the individual risk scores (weights
Critical=4, High=3, Medium=2, Low=1, normalized by the total weight, so
it stays on the 0-10 scale whenever every risk score is at most 10); on
the scenario list of one Critical gap with risk 9 and one Medium gap with
risk 4, the summary counts are (2, 1, 0) and the score 22/3 is strictly
between 4 and 9 and strictly above the unweighted mean 13/2. -/
theorem C7_overall_risk_score_weighted (gaps : List GapRecord) (hne : gaps ≠ []) :
    ((summarize gaps).overall_risk_score =
        weightedRiskSum gaps / totalWeight gaps ∧
      0 ≤ (summarize gaps).overall_risk_score ∧
      ((∀ g ∈ gaps, g.risk_score ≤ 10) →
        (summarize gaps).overall_risk_score ≤ 10)) ∧
    ((summarize scenarioGaps).total_gaps = 2 ∧
      (summarize scenarioGaps).critical_gaps = 1 ∧
      (summarize scenarioGaps).high_priority_gaps = 0 ∧
      (summarize scenarioGaps).overall_risk_score = 22 / 3 ∧
      4 < (summarize scenarioGaps).overall_risk_score ∧
      (summarize scenarioGaps).overall_risk_score < 9 ∧
      13 / 2 < (summarize scenarioGaps).overall_risk_score) := by
  have hW := totalWeight_pos hne
  have hscore : (summarize gaps).overall_risk_score =
      weightedRiskSum gaps / totalWeight gaps := by
    simp [summarize, overall_risk_score, hne]
  refine ⟨⟨hscore, ?_, ?_⟩, ?_⟩
  · rw [hscore]
    exact div_nonneg (weightedRiskSum_nonneg gaps) (le_of_lt hW)
  · intro hb
    rw [hscore, div_le_iff₀ hW]
    simpa [mul_comm] using weightedRiskSum_le hb
  · refine ⟨rfl, rfl, rfl, ?_, ?_, ?_, ?_⟩ <;>
      norm_num [summarize, scenarioGaps, overall_risk_score, weightedRiskSum,
        totalWeight, priorityWeight]

/-- C7 witness: the general formula instantiated at the scenario list. -/
theorem C7_witness :
    scenarioGaps ≠ [] ∧
    (summarize scenarioGaps).overall_risk_score =
      weightedRiskSum scenarioGaps / totalWeight scenarioGaps :=
  ⟨by decide, (C7_overall_risk_score_weighted scenarioGaps (by decide)).1.1⟩

end GapAgent
